import Mathlib

/-!
Verification of the certificate application: a shallow embedding of the
record store (`Storage` in the source) and of the PDF layout generator
(`PDFGenerator` in the source), with theorems checking the stated
behaviour of identifier generation, save/search/delete, the emblem
scaling arithmetic and the role-dependent wording.

Conventions of the embedding:
- JS strings are Lean `String`s; `toLowerCase`/`trim` are modelled by
  `jsToLower`/`jsTrim` (per-character ASCII lowering, whitespace trim).
- `undefined`/absent values are `Option`; JS string falsiness
  (`undefined` or `""`) is `jsFalsyStr`.
- The persistent counter in `localStorage` is an `Option Nat` (`none`
  models no stored value; `parseInt(x || '0')` is `Option.getD 0`).
- The IndexedDB object store keyed on `id` is a `List Certificate`;
  `put` is replace-in-place or append (`putCert`), `get` is `find?`,
  `delete` removes every record with the key and always succeeds.
- JS numbers in the layout arithmetic are `ℚ` (the computations involved
  are exact in the source: additions, multiplications and divisions).
- Asynchronous effects (image loading, text splitting, date display,
  PDF byte output) are injected as explicit function parameters.
-/

namespace CertApp

/-- Calendar date as produced by the JS `Date` accessors: `getFullYear`,
`getMonth` (0-based) and `getDate`. -/
structure JsDate where
  year : Nat
  month : Nat
  day : Nat
deriving DecidableEq

/-- The character for a single decimal digit, `d ↦ '0' + d`. -/
def digitChar (d : Nat) : Char := Char.ofNat (48 + d)

/-- The numeric value of a decimal digit character. -/
def charDigit (c : Char) : Nat := c.toNat - 48

/-- Little-endian decimal digits of `n`, with `0` rendered as the single
digit `0` as JS `String(0) = "0"` does. -/
def natDecDigits (n : Nat) : List Nat :=
  if n = 0 then [0] else Nat.digits 10 n

/-- Big-endian decimal character string of `n`, the model of the JS
conversion `String(n)` / `${n}`. -/
def natToDecChars (n : Nat) : List Char :=
  ((natDecDigits n).map digitChar).reverse

/-- Decimal representation of a natural number as a `String`. -/
def decRepr (n : Nat) : String := ⟨natToDecChars n⟩

/-- Model of `s.padStart(w, fill)`: prepend `fill` until length `w`. -/
def padStartStr (w : Nat) (fill : Char) (s : String) : String :=
  ⟨List.replicate (w - s.data.length) fill ++ s.data⟩

/-- Value of a big-endian decimal character string; inverse observation
used to state that the identifier suffix carries the counter value. -/
def decDecode (l : List Char) : Nat :=
  Nat.ofDigits 10 ((l.map charDigit).reverse)

/-- The `YYYYMMDD` date segment of a certificate identifier:
`${getFullYear()}${String(getMonth()+1).padStart(2,'0')}${String(getDate()).padStart(2,'0')}`
(the year is not padded in the source). -/
def datePart (d : JsDate) : String :=
  decRepr d.year ++ padStartStr 2 '0' (decRepr (d.month + 1)) ++
    padStartStr 2 '0' (decRepr d.day)

/-- The identifier string `CERT-${datePart}-${String(counter).padStart(5,'0')}`. -/
def certIdString (d : JsDate) (c : Nat) : String :=
  "CERT-" ++ datePart d ++ "-" ++ padStartStr 5 '0' (decRepr c)

/-- Embedding of `generateCertificateId`: read the persisted counter
(`parseInt(localStorage.getItem('certificateCounter') || '0')`), add one,
write it back, and format `CERT-YYYYMMDD-NNNNN`.  The date is the
injected current date; the counter cell is the returned state. -/
def generateCertificateId (d : JsDate) (st : Option Nat) : String × Option Nat :=
  let counter := st.getD 0 + 1
  (certIdString d counter, some counter)

/-- A sequence of `generateCertificateId` calls, one per supplied current
date, threading the persisted counter; returns the identifiers in call
order. -/
def genRun : List JsDate → Option Nat → List String
  | [], _ => []
  | d :: ds, st =>
    let g := generateCertificateId d st
    g.1 :: genRun ds g.2

/-- Numeric suffix of a generated identifier: the decimal value of the
characters after `CERT-` (5 chars), the 8-char date part and the dash. -/
def extractCounter (s : String) : Nat := decDecode (s.data.drop 14)

/-- Date sanity carried by every value a JS `Date` can return: four-digit
year, `getMonth() + 1 ≤ 12` and `getDate() ≤ 31` (we only need the two
components to render in at most two digits). -/
abbrev validJsDate (d : JsDate) : Prop :=
  1000 ≤ d.year ∧ d.year < 10000 ∧ d.month + 1 < 100 ∧ d.day < 100

/-- Input data for a certificate as collected by the caller; `id` is
`Option` because `saveCertificate` treats it as possibly absent. -/
structure CertData where
  id : Option String
  eventName : String
  eventDate : String
  eventLocation : String
  participantName : String
  participantRole : String
  eventDuration : String
deriving DecidableEq

/-- A persisted certificate record, exactly the fields the source stores:
the data fields, the rendered `pdfDataUrl` and `createdAt`.  There is no
`date` field — the object put in the store never has one. -/
structure Certificate where
  id : String
  eventName : String
  eventDate : String
  eventLocation : String
  participantName : String
  participantRole : String
  eventDuration : String
  pdfDataUrl : String
  createdAt : String
deriving DecidableEq

/-- State owned by the record store: the `localStorage` counter cell and
the IndexedDB object store contents. -/
structure StoreState where
  counter : Option Nat
  certs : List Certificate
deriving DecidableEq

/-- IndexedDB `store.put` on a store with `keyPath: 'id'`: replace the
record with the same key if present, otherwise add the record. -/
def putCert (c : Certificate) (l : List Certificate) : List Certificate :=
  if l.any (fun r => decide (r.id = c.id)) then
    l.map (fun r => if r.id = c.id then c else r)
  else
    l ++ [c]

/-- JS string falsiness of an optional string: `undefined` or `""`. -/
def jsFalsyStr : Option String → Bool
  | none => true
  | some s => decide (s = "")

/-- Embedding of `saveCertificate`.  The source computes
`const id = certificateData.id || generateCertificateId()` and then
builds `{ id, ...certificateData, pdfDataUrl, createdAt: new Date().toISOString() }`:
the spread re-copies a *present* `certificateData.id` over the computed
`id`, so a present `id` always wins, and the counter is consumed exactly
when `certificateData.id` is falsy.  `createdAt` is unconditionally the
injected current timestamp `nowIso`; the existing record is never read. -/
def saveCertificate (today : JsDate) (nowIso : String) (data : CertData)
    (pdfDataUrl : String) (st : StoreState) : Certificate × StoreState :=
  let gen := generateCertificateId today st.counter
  let computedId : String :=
    match data.id with
    | none => gen.1
    | some s => if s = "" then gen.1 else s
  let counterAfter : Option Nat :=
    match data.id with
    | none => gen.2
    | some s => if s = "" then gen.2 else st.counter
  let recId : String :=
    match data.id with
    | none => computedId
    | some s => s
  let cert : Certificate :=
    { id := recId
      eventName := data.eventName
      eventDate := data.eventDate
      eventLocation := data.eventLocation
      participantName := data.participantName
      participantRole := data.participantRole
      eventDuration := data.eventDuration
      pdfDataUrl := pdfDataUrl
      createdAt := nowIso }
  (cert, { counter := counterAfter, certs := putCert cert st.certs })

/-- Embedding of `getAllCertificates`: `store.getAll()` returns every
persisted record. -/
def getAllCertificates (l : List Certificate) : List Certificate := l

/-- Embedding of `getCertificateById`: `store.get(id)` resolves with the
record or with `undefined`. -/
def getCertificateById (i : String) (l : List Certificate) : Option Certificate :=
  l.find? (fun r => decide (r.id = i))

/-- Embedding of `deleteCertificate`: `store.delete(id)` fires `onsuccess`
whether or not a record with that key exists, and the promise resolves
with `true`. -/
def deleteCertificate (i : String) (l : List Certificate) : Bool × List Certificate :=
  (true, l.filter (fun r => decide (¬ r.id = i)))

/-- Model of `s.toLowerCase()` (per-character lowering). -/
def jsToLower (s : String) : String := ⟨s.data.map Char.toLower⟩

/-- Model of `s.trim()`: drop leading and trailing whitespace. -/
def jsTrim (s : String) : String :=
  ⟨((s.data.dropWhile Char.isWhitespace).reverse.dropWhile Char.isWhitespace).reverse⟩

/-- Whether `pat` occurs at the front of `l`. -/
def charsStartWith : List Char → List Char → Bool
  | _, [] => true
  | [], _ :: _ => false
  | a :: as, b :: bs => decide (a = b) && charsStartWith as bs

/-- Whether `pat` occurs contiguously anywhere inside `l`. -/
def charsContain (l pat : List Char) : Bool :=
  (List.range (l.length + 1)).any fun i => charsStartWith (l.drop i) pat

/-- Model of JS `s.includes(pat)`: substring containment. -/
def strIncludes (s pat : String) : Bool := charsContain s.data pat.data

/-- Display value of `new Date(cert.date).toLocaleDateString()` for the
records this application stores: no record carries a `date` property, so
`cert.date` is `undefined`, `new Date(undefined)` is an invalid date, and
its locale string is the constant `"Invalid Date"`. -/
def jsInvalidDateDisplay : String := "Invalid Date"

/-- Embedding of `searchCertificates`: empty/absent/whitespace-only term
returns everything; otherwise filter by the four `includes` disjuncts of
the source, the last being the (constant) display of the missing `date`
field. -/
def searchCertificates (searchTerm : Option String) (stored : List Certificate) :
    List Certificate :=
  let certificates := getAllCertificates stored
  if jsFalsyStr searchTerm = true ∨ jsTrim (searchTerm.getD "") = "" then
    certificates
  else
    let term := jsTrim (jsToLower (searchTerm.getD ""))
    certificates.filter fun cert =>
      strIncludes (jsToLower cert.id) term ||
      strIncludes (jsToLower cert.participantName) term ||
      strIncludes (jsToLower cert.eventName) term ||
      strIncludes jsInvalidDateDisplay term

/-- The match predicate the specification describes for `search`: the
trimmed term occurs case-insensitively in `id`, `participantName` or
`eventName` — and nothing else.  Stated from the spec's words, to be
compared with `searchCertificates` as embedded from the source. -/
def specFieldMatch (term : String) (cert : Certificate) : Bool :=
  strIncludes (jsToLower cert.id) term ||
  strIncludes (jsToLower cert.participantName) term ||
  strIncludes (jsToLower cert.eventName) term

/-- Raster image dimensions as seen by the layout code. -/
structure Img where
  width : ℚ
  height : ℚ
deriving DecidableEq

/-- Embedding of the emblem scaling block of `generateCertificatePDF`:
first the width constraint (cap at 50, scale the height by `50/width`),
then the height constraint on the result (cap at 50, scale the width by
`50/height`). -/
def scaleLogo (imgW imgH : ℚ) : ℚ × ℚ :=
  let w1 := if imgW > 50 then 50 else imgW
  let h1 := if imgW > 50 then imgH * (50 / imgW) else imgH
  let w2 := if h1 > 50 then w1 * (50 / h1) else w1
  let h2 := if h1 > 50 then 50 else h1
  (w2, h2)

/-- The width-constraining step, as the spec words it. -/
def widthConstrain (p : ℚ × ℚ) : ℚ × ℚ :=
  if p.1 > 50 then (50, p.2 * (50 / p.1)) else p

/-- The height-constraining step, as the spec words it. -/
def heightConstrain (p : ℚ × ℚ) : ℚ × ℚ :=
  if p.2 > 50 then (p.1 * (50 / p.2), 50) else p

/-- Embedding of `getRoleSpecificText`: a three-way case on
`participantRole` in which `'Asistente'` and the `default` case produce
the same sentence. -/
def getRoleSpecificText (data : CertData) : String :=
  if data.participantRole = "Ponente" then
    "ha participado como PONENTE en el evento \"" ++ data.eventName ++
      "\", presentando su conocimiento y experiencia durante " ++
      data.eventDuration ++ " horas."
  else if data.participantRole = "Organizador" then
    "ha participado como ORGANIZADOR en el evento \"" ++ data.eventName ++
      "\", gestionando y coordinando actividades durante " ++
      data.eventDuration ++ " horas."
  else
    "ha participado como ASISTENTE en el evento \"" ++ data.eventName ++
      "\", completando satisfactoriamente " ++ data.eventDuration ++
      " horas de formación."

/-- JS template-literal rendering of a possibly-undefined string. -/
def jsShowOptString : Option String → String
  | some s => s
  | none => "undefined"

/-- The laid-out page: every cursor position and text the source emits.
All positions after the emblem area are offsets of `logoHeight`, which is
`0` when no emblem is drawn. -/
structure Layout where
  emblem : Option (ℚ × ℚ × ℚ × ℚ)
  certifyY : ℚ
  participantName : String
  nameY : ℚ
  roleParaLines : List String
  roleParaY : ℚ
  infoText : String
  infoY : ℚ
  signLineY : ℚ
  signTextY : ℚ
  footerText : String
  footerY : ℚ
  validationY : ℚ

/-- The injected collaborators of `generateCertificatePDF`: image loading
(may fail), jsPDF `splitTextToSize`, locale date formatting, today's
display date, and the final `pdf.output` step (any non-emblem rendering
failure is an `error` here). -/
structure RenderEnv where
  load : String → Except String Img
  split : String → ℚ → List String
  fmtDate : String → String
  todayStr : String
  output : Layout → Except String String

/-- The layout computation of `generateCertificatePDF` on a 297×210 A4
landscape page: the emblem block (with its local decode-failure recovery
setting `logoHeight = 0`), then the vertical flow of all following
blocks. -/
def certificateLayout (load : String → Except String Img)
    (split : String → ℚ → List String) (fmtDate : String → String)
    (todayStr : String) (data : CertData) (logoDataUrl : Option String) : Layout :=
  let pageWidth : ℚ := 297
  let eb : Option (ℚ × ℚ × ℚ × ℚ) × ℚ :=
    match logoDataUrl with
    | none => (none, 0)
    | some url =>
      match load url with
      | .error _ => (none, 0)
      | .ok img =>
        let s := scaleLogo img.width img.height
        (some (pageWidth / 2 - s.1 / 2, 40, s.1, s.2), s.2 + 10)
  let logoHeight := eb.2
  let roleText := getRoleSpecificText data
  let splitText := split roleText (pageWidth - 80)
  let textHeight : ℚ := (splitText.length : ℚ) * 5
  let yPos := 75 + logoHeight + textHeight
  let signLineY := yPos + 30
  let signTextY := signLineY + 5
  let footerY := signTextY + 20
  { emblem := eb.1
    certifyY := 50 + logoHeight
    participantName := data.participantName
    nameY := 60 + logoHeight
    roleParaLines := splitText
    roleParaY := 70 + logoHeight
    infoText := "Realizado el " ++ fmtDate data.eventDate ++ " en " ++
      data.eventLocation ++ "."
    infoY := yPos
    signLineY := signLineY
    signTextY := signTextY
    footerText := "ID: " ++ jsShowOptString data.id ++
      " | Fecha de emisión: " ++ todayStr
    footerY := footerY
    validationY := footerY + 5 }

/-- Embedding of `generateCertificatePDF`: compute the layout (recovering
locally from an emblem load failure) and run the output step; the outer
`catch` rethrows, so an output failure propagates unchanged. -/
def generateCertificatePDF (env : RenderEnv) (data : CertData)
    (logoDataUrl : Option String) : Except String String :=
  env.output (certificateLayout env.load env.split env.fmtDate env.todayStr data logoDataUrl)

/-- A sample stored record used as concrete input in counterexamples and
witnesses; none of its searchable fields contains the letter `v`. -/
def cert0 : Certificate :=
  { id := "CERT-20240101-00001"
    eventName := "Taller de Rust"
    eventDate := "2024-05-10"
    eventLocation := "Lima"
    participantName := "Carlos Ruiz"
    participantRole := "Ponente"
    eventDuration := "8"
    pdfDataUrl := "data:application/pdf;base64,AAAA"
    createdAt := "2024-01-01T10:00:00.000Z" }

/-- A store already holding `cert0`, counter at `1`. -/
def store0 : StoreState := { counter := some 1, certs := [cert0] }

/-- Re-save input: the same `id` as `cert0` with changed fields. -/
def data0 : CertData :=
  { id := some "CERT-20240101-00001"
    eventName := "Taller de Go"
    eventDate := "2024-06-10"
    eventLocation := "Lima"
    participantName := "Carlos Ruiz"
    participantRole := "Asistente"
    eventDuration := "4" }

/-- Save input with an absent `id`. -/
def dataNoId : CertData :=
  { id := none
    eventName := "Taller de Rust"
    eventDate := "2024-05-10"
    eventLocation := "Lima"
    participantName := "Ana"
    participantRole := "Asistente"
    eventDuration := "8" }

/-- A sample current date (15 Jan 2024 in JS `Date` accessor form). -/
def sampleDate : JsDate := ⟨2024, 0, 15⟩

/-- A second sample current date on a different calendar day. -/
def sampleDate2 : JsDate := ⟨2025, 5, 3⟩

/-- Certificate data whose role is outside the three known roles. -/
def dataInvitado : CertData :=
  { id := some "CERT-20240101-00002"
    eventName := "Taller de Rust"
    eventDate := "2024-05-10"
    eventLocation := "Lima"
    participantName := "Eva"
    participantRole := "Invitado"
    eventDuration := "8" }

/-- A render environment whose image loading always fails and whose
output step succeeds. -/
def envFail : RenderEnv :=
  { load := fun _ => Except.error "bad decode"
    split := fun s _ => [s]
    fmtDate := fun s => s
    todayStr := "15/01/2024"
    output := fun _ => Except.ok "PDF" }

/-- C8 part of the sample scenario role text, spelled out once. -/
def asistenteWording (data : CertData) : String :=
  "ha participado como ASISTENTE en el evento \"" ++ data.eventName ++
    "\", completando satisfactoriamente " ++ data.eventDuration ++
    " horas de formación."

/-- C8: every `participantRole` other than `Ponente` and `Organizador`
falls to the explicit default branch and yields exactly the `Asistente`
wording, so such a role produces the identical sentence to the role
`Asistente`. -/
theorem getRoleSpecificText_default_fallback (data : CertData)
    (h1 : data.participantRole ≠ "Ponente")
    (h2 : data.participantRole ≠ "Organizador") :
    getRoleSpecificText data = asistenteWording data ∧
      getRoleSpecificText data =
        getRoleSpecificText { data with participantRole := "Asistente" } := by
  constructor
  · simp [getRoleSpecificText, asistenteWording, h1, h2]
  · simp [getRoleSpecificText, h1, h2]

/-- Witness for C8 at the concrete role `Invitado`. -/
theorem getRoleSpecificText_default_fallback_witness :
    dataInvitado.participantRole ≠ "Ponente" ∧
      dataInvitado.participantRole ≠ "Organizador" ∧
      (getRoleSpecificText dataInvitado = asistenteWording dataInvitado ∧
        getRoleSpecificText dataInvitado =
          getRoleSpecificText { dataInvitado with participantRole := "Asistente" }) :=
  ⟨by decide, by decide,
    getRoleSpecificText_default_fallback dataInvitado (by decide) (by decide)⟩

/-- C9: deleting an id that is not in the store resolves with `true` and
returns the store contents unchanged — deletion of a missing key is a
successful no-op. -/
theorem deleteCertificate_missing_id_noop (i : String) (l : List Certificate)
    (h : ∀ c ∈ l, c.id ≠ i) : deleteCertificate i l = (true, l) := by
  unfold deleteCertificate
  rw [List.filter_eq_self.mpr]
  intro a ha
  simpa using h a ha

/-- Witness for C9 on a one-record store and an absent id. -/
theorem deleteCertificate_missing_id_noop_witness :
    (∀ c ∈ [cert0], c.id ≠ "CERT-MISSING") ∧
      deleteCertificate "CERT-MISSING" [cert0] = (true, [cert0]) :=
  ⟨by decide, deleteCertificate_missing_id_noop "CERT-MISSING" [cert0] (by decide)⟩

/-- C7: for positive emblem dimensions the scaled emblem fits the 50×50
box in both dimensions, the aspect ratio is preserved exactly
(`w' * h = w * h'`), an image already inside the box is untouched, and
the computation is the sequential width-then-height constraint. -/
theorem scaleLogo_bounds (w h : ℚ) (hw : 0 < w) (hh : 0 < h) :
    (scaleLogo w h).1 ≤ 50 ∧ (scaleLogo w h).2 ≤ 50 ∧
      (scaleLogo w h).1 * h = w * (scaleLogo w h).2 ∧
      (w ≤ 50 → h ≤ 50 → scaleLogo w h = (w, h)) ∧
      scaleLogo w h = heightConstrain (widthConstrain (w, h)) := by
  have hw0 : w ≠ 0 := ne_of_gt hw
  have hh0 : h ≠ 0 := ne_of_gt hh
  unfold scaleLogo widthConstrain heightConstrain
  simp only
  split_ifs with hgw hgh hgh
  · have hX : (0 : ℚ) < h * (50 / w) := by positivity
    have hX0 : h * (50 / w) ≠ 0 := ne_of_gt hX
    refine ⟨?_, le_refl _, ?_, ?_, rfl⟩
    · rw [← mul_div_assoc, div_le_iff₀ hX]
      nlinarith
    · field_simp
      ring
    · intro hle _
      linarith
  · refine ⟨le_refl _, ?_, ?_, ?_, rfl⟩
    · linarith [not_lt.mp hgh]
    · field_simp
      ring
    · intro hle _
      linarith
  · refine ⟨?_, le_refl _, ?_, ?_, rfl⟩
    · rw [← mul_div_assoc, div_le_iff₀ hh]
      nlinarith [not_lt.mp hgw]
    · field_simp
    · intro _ hle
      linarith
  · exact ⟨not_lt.mp hgw, not_lt.mp hgh, mul_comm w h ▸ rfl, fun _ _ => rfl, rfl⟩

/-- Witness for C7 at a wide 100×20 emblem. -/
theorem scaleLogo_bounds_witness :
    (0 : ℚ) < 100 ∧ (0 : ℚ) < 20 ∧
      ((scaleLogo 100 20).1 ≤ 50 ∧ (scaleLogo 100 20).2 ≤ 50 ∧
        (scaleLogo 100 20).1 * 20 = 100 * (scaleLogo 100 20).2 ∧
        ((100 : ℚ) ≤ 50 → (20 : ℚ) ≤ 50 → scaleLogo 100 20 = (100, 20)) ∧
        scaleLogo 100 20 = heightConstrain (widthConstrain (100, 20))) :=
  ⟨by norm_num, by norm_num, scaleLogo_bounds 100 20 (by norm_num) (by norm_num)⟩

/-- C6: when loading/decoding the emblem fails, the whole layout equals
the layout computed with no emblem at all (the emblem area contributes
zero height to the flow), the emblem is omitted, composition itself
completes the same way as the emblem-free call, and a failure of the
output stage propagates verbatim to the caller. -/
theorem generateCertificatePDF_emblem_failure_recovery (env : RenderEnv)
    (data : CertData) (url e : String) (hload : env.load url = Except.error e) :
    certificateLayout env.load env.split env.fmtDate env.todayStr data (some url) =
      certificateLayout env.load env.split env.fmtDate env.todayStr data none ∧
      (certificateLayout env.load env.split env.fmtDate env.todayStr data
        (some url)).emblem = none ∧
      generateCertificatePDF env data (some url) =
        generateCertificatePDF env data none ∧
      ∀ e2, env.output (certificateLayout env.load env.split env.fmtDate
          env.todayStr data (some url)) = Except.error e2 →
        generateCertificatePDF env data (some url) = Except.error e2 := by
  have hL : certificateLayout env.load env.split env.fmtDate env.todayStr data
      (some url) =
      certificateLayout env.load env.split env.fmtDate env.todayStr data none := by
    simp only [certificateLayout, hload]
  refine ⟨hL, ?_, ?_, ?_⟩
  · rw [hL]
    simp [certificateLayout]
  · unfold generateCertificatePDF
    rw [hL]
  · intro e2 h2
    exact h2

/-- Witness for C6 with an always-failing loader. -/
theorem generateCertificatePDF_emblem_failure_recovery_witness :
    envFail.load "logo.png" = Except.error "bad decode" ∧
      (certificateLayout envFail.load envFail.split envFail.fmtDate
          envFail.todayStr dataNoId (some "logo.png") =
        certificateLayout envFail.load envFail.split envFail.fmtDate
          envFail.todayStr dataNoId none ∧
        (certificateLayout envFail.load envFail.split envFail.fmtDate
            envFail.todayStr dataNoId (some "logo.png")).emblem = none ∧
        generateCertificatePDF envFail dataNoId (some "logo.png") =
          generateCertificatePDF envFail dataNoId none ∧
        ∀ e2, envFail.output (certificateLayout envFail.load envFail.split
            envFail.fmtDate envFail.todayStr dataNoId (some "logo.png")) =
            Except.error e2 →
          generateCertificatePDF envFail dataNoId (some "logo.png") =
            Except.error e2) :=
  ⟨rfl, generateCertificatePDF_emblem_failure_recovery envFail dataNoId
    "logo.png" "bad decode" rfl⟩

/-- After replacing in place, lookup by the new record's key finds the
new record. -/
theorem find?_map_putCert (c : Certificate) (l : List Certificate)
    (h : l.any (fun r => decide (r.id = c.id)) = true) :
    (l.map (fun r => if r.id = c.id then c else r)).find?
      (fun r => decide (r.id = c.id)) = some c := by
  induction l with
  | nil => simp at h
  | cons a t ih =>
    by_cases ha : a.id = c.id
    · simp [ha]
    · simp only [List.map_cons, if_neg ha]
      rw [List.find?_cons_of_neg _ (by simpa using ha)]
      refine ih ?_
      simpa [ha] using h

/-- Appending a fresh record after a list with no matching key makes it
the lookup result for its key. -/
theorem find?_append_single (c : Certificate) (l : List Certificate)
    (h : ∀ r ∈ l, r.id ≠ c.id) :
    (l ++ [c]).find? (fun r => decide (r.id = c.id)) = some c := by
  induction l with
  | nil => simp
  | cons a t ih =>
    rw [List.cons_append, List.find?_cons_of_neg _ (by
      simpa using h a (List.mem_cons_self a t))]
    exact ih fun r hr => h r (List.mem_cons_of_mem a hr)

/-- The record handed to `put` is what a following `get` of its key
returns, for both the replace and the insert case. -/
theorem getById_putCert (c : Certificate) (l : List Certificate) :
    getCertificateById c.id (putCert c l) = some c := by
  unfold getCertificateById putCert
  by_cases h : l.any (fun r => decide (r.id = c.id)) = true
  · rw [if_pos h]
    exact find?_map_putCert c l h
  · rw [if_neg h]
    refine find?_append_single c l fun r hr heq => h ?_
    exact List.any_eq_true.mpr ⟨r, hr, by simpa using heq⟩

/-- The record returned by `saveCertificate` is retrievable under its own
key from the resulting store. -/
theorem saveCertificate_persists_under_key (today : JsDate) (nowIso : String)
    (data : CertData) (pdfUrl : String) (st : StoreState) :
    getCertificateById (saveCertificate today nowIso data pdfUrl st).1.id
      (saveCertificate today nowIso data pdfUrl st).2.certs =
      some (saveCertificate today nowIso data pdfUrl st).1 :=
  getById_putCert (saveCertificate today nowIso data pdfUrl st).1 st.certs

/-- C1 amended: `saveCertificate` sets `createdAt` to the current
timestamp on **every** call — the record under construction never reads
the previously stored record, so a re-save overwrites the original
`createdAt` with the new current time instead of preserving it. -/
theorem saveCertificate_always_stamps_now (today : JsDate) (nowIso : String)
    (data : CertData) (pdfUrl : String) (st : StoreState) :
    (saveCertificate today nowIso data pdfUrl st).1.createdAt = nowIso ∧
      Option.map Certificate.createdAt
        (getCertificateById (saveCertificate today nowIso data pdfUrl st).1.id
          (saveCertificate today nowIso data pdfUrl st).2.certs) =
        some nowIso := by
  refine ⟨rfl, ?_⟩
  rw [saveCertificate_persists_under_key today nowIso data pdfUrl st]
  rfl

/-- C1 counterexample: the store already holds `cert0` under its id with
`createdAt = "2024-01-01T10:00:00.000Z"`; saving again with the same id
and a later clock leaves the stored record with the **new** timestamp,
refuting that `createdAt` stays equal to the value from the first save. -/
theorem saveCertificate_overwrites_createdAt_cex :
    getCertificateById "CERT-20240101-00001" store0.certs = some cert0 ∧
      cert0.createdAt = "2024-01-01T10:00:00.000Z" ∧
      (saveCertificate sampleDate "2024-06-10T12:00:00.000Z" data0
        "data:application/pdf;base64,BBBB" store0).1.createdAt =
        "2024-06-10T12:00:00.000Z" ∧
      Option.map Certificate.createdAt
        (getCertificateById "CERT-20240101-00001"
          (saveCertificate sampleDate "2024-06-10T12:00:00.000Z" data0
            "data:application/pdf;base64,BBBB" store0).2.certs) ≠
        some cert0.createdAt :=
  ⟨by decide, by decide, by decide, by decide⟩

/-- C5: if `data.id` is absent, the saved and returned record carries the
fresh identifier produced by `generateCertificateId` on the current
counter, and is persisted under that key; if `data.id` is present, that
identifier is the record's key. -/
theorem saveCertificate_id_assignment (today : JsDate) (nowIso : String)
    (data : CertData) (pdfUrl : String) (st : StoreState) :
    (data.id = none →
      (saveCertificate today nowIso data pdfUrl st).1.id =
        (generateCertificateId today st.counter).1 ∧
      getCertificateById (generateCertificateId today st.counter).1
        (saveCertificate today nowIso data pdfUrl st).2.certs =
        some (saveCertificate today nowIso data pdfUrl st).1) ∧
    (∀ s, data.id = some s →
      (saveCertificate today nowIso data pdfUrl st).1.id = s ∧
      getCertificateById s
        (saveCertificate today nowIso data pdfUrl st).2.certs =
        some (saveCertificate today nowIso data pdfUrl st).1) := by
  constructor
  · intro hid
    have h1 : (saveCertificate today nowIso data pdfUrl st).1.id =
        (generateCertificateId today st.counter).1 := by
      simp only [saveCertificate, hid]
    have h2 := saveCertificate_persists_under_key today nowIso data pdfUrl st
    rw [h1] at h2
    exact ⟨h1, h2⟩
  · intro s hid
    have h1 : (saveCertificate today nowIso data pdfUrl st).1.id = s := by
      simp only [saveCertificate, hid]
    have h2 := saveCertificate_persists_under_key today nowIso data pdfUrl st
    rw [h1] at h2
    exact ⟨h1, h2⟩

/-- Witness for C5 with an absent id on a non-empty store. -/
theorem saveCertificate_id_assignment_witness :
    dataNoId.id = none ∧
      ((saveCertificate sampleDate "2024-01-15T09:00:00.000Z" dataNoId
          "data:application/pdf;base64,CCCC" store0).1.id =
        (generateCertificateId sampleDate store0.counter).1 ∧
        getCertificateById (generateCertificateId sampleDate store0.counter).1
          (saveCertificate sampleDate "2024-01-15T09:00:00.000Z" dataNoId
            "data:application/pdf;base64,CCCC" store0).2.certs =
          some (saveCertificate sampleDate "2024-01-15T09:00:00.000Z" dataNoId
            "data:application/pdf;base64,CCCC" store0).1) :=
  ⟨rfl, (saveCertificate_id_assignment sampleDate "2024-01-15T09:00:00.000Z"
    dataNoId "data:application/pdf;base64,CCCC" store0).1 rfl⟩

/-- C10: whenever the lowercased trimmed term occurs (case-sensitively)
inside the string `"Invalid Date"` — the display of every record's
missing `date` field — the fourth filter disjunct is true for every
record, so the search returns the entire store. -/
theorem searchCertificates_invalid_date_matches_all (s : String)
    (certs : List Certificate) (h1 : jsTrim s ≠ "")
    (h2 : strIncludes jsInvalidDateDisplay (jsTrim (jsToLower s)) = true) :
    searchCertificates (some s) certs = certs := by
  have hcond : ¬(jsFalsyStr (some s) = true ∨ jsTrim s = "") := by
    rintro (hc | hc)
    · have hse : s = "" := by simpa [jsFalsyStr] using hc
      subst hse
      exact h1 (by decide)
    · exact h1 hc
  simp only [searchCertificates, getAllCertificates, Option.getD_some]
  rw [if_neg hcond]
  apply List.filter_eq_self.mpr
  intro a _
  simp [h2]

/-- Witness for C10 at the term `"valid"`, which no field of `cert0`
contains. -/
theorem searchCertificates_invalid_date_matches_all_witness :
    (jsTrim "valid" ≠ "" ∧
      strIncludes jsInvalidDateDisplay (jsTrim (jsToLower "valid")) = true ∧
      specFieldMatch (jsTrim (jsToLower "valid")) cert0 = false) ∧
      searchCertificates (some "valid") [cert0] = [cert0] :=
  ⟨⟨by decide, by decide, by decide⟩,
    searchCertificates_invalid_date_matches_all "valid" [cert0]
      (by decide) (by decide)⟩

/-- C2 counterexample: with the single stored record `cert0` and the term
`"valid"`, none of `id`, `participantName`, `eventName` matches, yet the
search returns the record — the result is not the subset the claim
describes. -/
theorem searchCertificates_not_spec_subset_cex :
    searchCertificates (some "valid") [cert0] = [cert0] ∧
      List.filter (specFieldMatch (jsTrim (jsToLower "valid"))) [cert0] = [] ∧
      searchCertificates (some "valid") [cert0] ≠
        List.filter (specFieldMatch (jsTrim (jsToLower "valid"))) [cert0] :=
  ⟨by decide, by decide, by decide⟩

/-- C2 amended: an absent, empty or whitespace-only term returns exactly
`getAllCertificates`; otherwise a record is returned iff it is stored and
either one of `id`/`participantName`/`eventName` contains the trimmed
lowercased term, or the constant `"Invalid Date"` display of the missing
`date` field contains it (this last disjunct admits records outside the
subset the original claim describes). -/
theorem searchCertificates_characterization (certs : List Certificate) :
    searchCertificates none certs = getAllCertificates certs ∧
      (∀ s, jsTrim s = "" →
        searchCertificates (some s) certs = getAllCertificates certs) ∧
      (∀ s, jsTrim s ≠ "" → ∀ r,
        r ∈ searchCertificates (some s) certs ↔
          r ∈ certs ∧
            (specFieldMatch (jsTrim (jsToLower s)) r = true ∨
              strIncludes jsInvalidDateDisplay (jsTrim (jsToLower s)) = true)) := by
  refine ⟨?_, ?_, ?_⟩
  · simp [searchCertificates, jsFalsyStr, getAllCertificates]
  · intro s h
    simp [searchCertificates, h, getAllCertificates]
  · intro s h r
    have hcond : ¬(jsFalsyStr (some s) = true ∨ jsTrim s = "") := by
      rintro (hc | hc)
      · have hse : s = "" := by simpa [jsFalsyStr] using hc
        subst hse
        exact h (by decide)
      · exact h hc
    simp only [searchCertificates, getAllCertificates, Option.getD_some]
    rw [if_neg hcond, List.mem_filter]
    refine and_congr_right fun _ => ?_
    simp [specFieldMatch, Bool.or_eq_true, or_assoc]

/-- Witness for the amended C2 at a term that matches `eventName`. -/
theorem searchCertificates_characterization_witness :
    jsTrim "rust" ≠ "" ∧
      (cert0 ∈ searchCertificates (some "rust") [cert0] ↔
        cert0 ∈ [cert0] ∧
          (specFieldMatch (jsTrim (jsToLower "rust")) cert0 = true ∨
            strIncludes jsInvalidDateDisplay (jsTrim (jsToLower "rust")) = true)) :=
  ⟨by decide,
    (searchCertificates_characterization [cert0]).2.2 "rust" (by decide) cert0⟩

/-- Appending strings concatenates their character data. -/
theorem strData_append (s t : String) : (s ++ t).data = s.data ++ t.data := by
  cases s
  cases t
  rfl

/-- Digit characters round-trip through their numeric value. -/
theorem charDigit_digitChar {d : Nat} (h : d < 10) : charDigit (digitChar d) = d := by
  interval_cases d <;> decide

/-- Every entry of `natDecDigits` is a decimal digit. -/
theorem natDecDigits_lt (n : Nat) : ∀ d ∈ natDecDigits n, d < 10 := by
  intro d hd
  unfold natDecDigits at hd
  split at hd
  · simp only [List.mem_singleton] at hd
    omega
  · exact Nat.digits_lt_base (by norm_num) hd

/-- Encoding digits as characters and decoding is the identity. -/
theorem map_charDigit_map_digitChar (D : List Nat) (h : ∀ d ∈ D, d < 10) :
    (D.map digitChar).map charDigit = D := by
  induction D with
  | nil => rfl
  | cons d t ih =>
    simp only [List.map_cons]
    rw [charDigit_digitChar (h d (List.mem_cons_self d t)),
      ih fun x hx => h x (List.mem_cons_of_mem d hx)]

/-- A run of zero digits contributes nothing to `ofDigits`. -/
theorem ofDigits_replicate_zero (k : Nat) :
    Nat.ofDigits 10 (List.replicate k 0) = 0 := by
  induction k with
  | zero => rfl
  | succ m ih => simp [List.replicate_succ, Nat.ofDigits_cons, ih]

/-- `ofDigits` of `natDecDigits` recovers the number. -/
theorem ofDigits_natDecDigits (n : Nat) : Nat.ofDigits 10 (natDecDigits n) = n := by
  rcases eq_or_ne n 0 with h | h
  · subst h
    decide
  · rw [natDecDigits, if_neg h]
    exact Nat.ofDigits_digits 10 n

/-- Decoding the zero-padded decimal rendering returns the number: the
padding cannot truncate or wrap the encoded value, whatever the width. -/
theorem decDecode_padStart (w n : Nat) :
    decDecode (padStartStr w '0' (decRepr n)).data = n := by
  show Nat.ofDigits 10
      (((List.replicate (w - (decRepr n).data.length) '0' ++
        ((natDecDigits n).map digitChar).reverse).map charDigit).reverse) = n
  rw [List.map_append, List.map_replicate, List.map_reverse,
    map_charDigit_map_digitChar _ (natDecDigits_lt n), List.reverse_append,
    List.reverse_reverse, List.reverse_replicate]
  have h0 : charDigit '0' = 0 := rfl
  rw [h0, Nat.ofDigits_append, ofDigits_natDecDigits, ofDigits_replicate_zero]
  simp

/-- Decimal length upper bound from a power-of-ten bound. -/
theorem natToDecChars_length_le {n k : Nat} (hk : 1 ≤ k) (h : n < 10 ^ k) :
    (natToDecChars n).length ≤ k := by
  unfold natToDecChars natDecDigits
  rcases eq_or_ne n 0 with h0 | h0
  · subst h0
    simpa using hk
  · rw [if_neg h0]
    simp only [List.length_reverse, List.length_map]
    rw [Nat.digits_len 10 n (by norm_num) h0]
    have := Nat.log_lt_of_lt_pow h0 h
    omega

/-- Exact decimal length between consecutive powers of ten. -/
theorem natToDecChars_length_eq {n k : Nat} (h1 : 10 ^ k ≤ n)
    (h2 : n < 10 ^ (k + 1)) : (natToDecChars n).length = k + 1 := by
  have hp : 0 < 10 ^ k := Nat.pos_pow_of_pos k (by norm_num)
  have h0 : n ≠ 0 := by omega
  unfold natToDecChars natDecDigits
  rw [if_neg h0]
  simp only [List.length_reverse, List.length_map]
  rw [Nat.digits_len 10 n (by norm_num) h0,
    Nat.log_eq_of_pow_le_of_lt_pow h1 h2]

/-- Length of a padded string: the width or the content, whichever wins. -/
theorem padStartStr_length (w : Nat) (fill : Char) (s : String) :
    (padStartStr w fill s).data.length = max w s.data.length := by
  unfold padStartStr
  simp only [List.length_append, List.length_replicate]
  omega

/-- Under a valid JS date the `YYYYMMDD` segment is exactly 8 characters:
4 for the year and 2 each for the padded month and day. -/
theorem datePart_data_length {d : JsDate} (h : validJsDate d) :
    (datePart d).data.length = 8 := by
  obtain ⟨hy1, hy2, hm, hd⟩ := h
  have hylen : (natToDecChars d.year).length = 4 := by
    refine natToDecChars_length_eq (k := 3) ?_ ?_
    · norm_num
      omega
    · norm_num
      omega
  have hmlen : (natToDecChars (d.month + 1)).length ≤ 2 := by
    refine natToDecChars_length_le (by norm_num) ?_
    norm_num
    omega
  have hdlen : (natToDecChars d.day).length ≤ 2 := by
    refine natToDecChars_length_le (by norm_num) ?_
    norm_num
    omega
  have hy' : (decRepr d.year).data.length = 4 := hylen
  have hm' : (decRepr (d.month + 1)).data.length ≤ 2 := hmlen
  have hd' : (decRepr d.day).data.length ≤ 2 := hdlen
  unfold datePart
  rw [strData_append, strData_append, List.length_append, List.length_append,
    padStartStr_length, padStartStr_length]
  omega

/-- The identifier's character data, split at its four segments. -/
theorem certIdString_data (d : JsDate) (c : Nat) :
    (certIdString d c).data =
      "CERT-".data ++ (datePart d).data ++ "-".data ++
        (padStartStr 5 '0' (decRepr c)).data := by
  unfold certIdString
  rw [strData_append, strData_append, strData_append]

/-- On identifiers generated from valid dates, `extractCounter` recovers
the counter value used to build the suffix. -/
theorem extractCounter_certIdString {d : JsDate} (c : Nat)
    (h : (datePart d).data.length = 8) :
    extractCounter (certIdString d c) = c := by
  unfold extractCounter
  rw [certIdString_data]
  have hlen : ("CERT-".data ++ (datePart d).data ++ "-".data).length = 14 := by
    rw [List.length_append, List.length_append, h]
    decide
  rw [← hlen, List.drop_left]
  exact decDecode_padStart 5 c

/-- Mapping `extractCounter` over a run of calls yields the consecutive
counter values `start+1, start+2, …`, independently of the dates. -/
theorem genRun_map_extractCounter (ds : List JsDate) (st : Option Nat)
    (h : ∀ d ∈ ds, validJsDate d) :
    (genRun ds st).map extractCounter =
      (List.range ds.length).map (fun i => st.getD 0 + 1 + i) := by
  induction ds generalizing st with
  | nil => rfl
  | cons d t ih =>
    have hd := h d (List.mem_cons_self d t)
    have ht : ∀ x ∈ t, validJsDate x := fun x hx => h x (List.mem_cons_of_mem d hx)
    simp only [genRun, generateCertificateId, List.map_cons, List.length_cons]
    rw [extractCounter_certIdString _ (datePart_data_length hd), ih _ ht]
    simp only [Option.getD_some, List.range_succ_eq_map, List.map_cons,
      List.map_map]
    rw [List.cons_eq_cons]
    refine ⟨by omega, List.map_congr_left fun i _ => ?_⟩
    simp only [Function.comp_apply]
    omega

/-- C3: a run of `generateCertificateId` calls over any dates and any
initial persisted counter produces one identifier per call; the numeric
suffixes are exactly the consecutive values `start+1, start+2, …` — the
single global counter increments by one on every call and is never reset
when the embedded date segment changes — so the suffixes are strictly
increasing and the identifiers are pairwise distinct. -/
theorem generateCertificateId_run_distinct (ds : List JsDate) (st : Option Nat)
    (h : ∀ d ∈ ds, validJsDate d) :
    (genRun ds st).length = ds.length ∧
      (genRun ds st).map extractCounter =
        (List.range ds.length).map (fun i => st.getD 0 + 1 + i) ∧
      ((genRun ds st).map extractCounter).Pairwise (· < ·) ∧
      (genRun ds st).Nodup := by
  have hmap := genRun_map_extractCounter ds st h
  have hlen : (genRun ds st).length = ds.length := by
    have := congrArg List.length hmap
    simpa using this
  have hpw : ((genRun ds st).map extractCounter).Pairwise (· < ·) := by
    rw [hmap]
    refine List.Pairwise.map _ ?_ (List.pairwise_lt_range ds.length)
    exact fun a b hab => by omega
  have hnd : (genRun ds st).Nodup := by
    have hne : ((genRun ds st).map extractCounter).Pairwise (· ≠ ·) :=
      hpw.imp fun hab => Nat.ne_of_lt hab
    exact List.Nodup.of_map extractCounter hne
  exact ⟨hlen, hmap, hpw, hnd⟩

/-- Witness for C3: two calls on different calendar days, fresh counter. -/
theorem generateCertificateId_run_distinct_witness :
    (∀ d ∈ [sampleDate, sampleDate2], validJsDate d) ∧
      ((genRun [sampleDate, sampleDate2] none).length =
        ([sampleDate, sampleDate2] : List JsDate).length ∧
        (genRun [sampleDate, sampleDate2] none).map extractCounter =
          (List.range ([sampleDate, sampleDate2] : List JsDate).length).map
            (fun i => (none : Option Nat).getD 0 + 1 + i) ∧
        ((genRun [sampleDate, sampleDate2] none).map extractCounter).Pairwise
          (· < ·) ∧
        (genRun [sampleDate, sampleDate2] none).Nodup) :=
  ⟨by decide,
    generateCertificateId_run_distinct [sampleDate, sampleDate2] none (by decide)⟩

/-- Every digit character produced by the encoder is a decimal digit. -/
theorem digitChar_isDigit {d : Nat} (h : d < 10) : (digitChar d).isDigit = true := by
  interval_cases d <;> decide

/-- All characters of the decimal rendering are digits. -/
theorem natToDecChars_all_digits (n : Nat) :
    ∀ ch ∈ natToDecChars n, ch.isDigit = true := by
  intro ch hch
  unfold natToDecChars at hch
  rw [List.mem_reverse] at hch
  obtain ⟨d, hd, rfl⟩ := List.mem_map.mp hch
  exact digitChar_isDigit (natDecDigits_lt n d hd)

/-- All characters of a zero-padded decimal rendering are digits. -/
theorem padStart_all_digits (w n : Nat) :
    ∀ ch ∈ (padStartStr w '0' (decRepr n)).data, ch.isDigit = true := by
  intro ch hch
  unfold padStartStr at hch
  rcases List.mem_append.mp hch with h1 | h1
  · rw [List.eq_of_mem_replicate h1]
    decide
  · exact natToDecChars_all_digits n ch h1

/-- All characters of the date segment are digits. -/
theorem datePart_all_digits (d : JsDate) :
    ∀ ch ∈ (datePart d).data, ch.isDigit = true := by
  intro ch hch
  unfold datePart at hch
  rw [strData_append, strData_append] at hch
  rcases List.mem_append.mp hch with h1 | h1
  · rcases List.mem_append.mp h1 with h2 | h2
    · exact natToDecChars_all_digits _ ch h2
    · exact padStart_all_digits 2 _ ch h2
  · exact padStart_all_digits 2 _ ch h1

/-- C4: the identifier is exactly `CERT-` ++ date ++ `-` ++ suffix where
the date segment is 8 decimal digits, the suffix is all decimal digits of
length `max 5 …` — at least five, exactly five for counter values below
`100000`, wider (never truncated) above — and the suffix still decodes to
the exact counter value, so large counters widen rather than wrap. -/
theorem certIdString_format {d : JsDate} (c : Nat) (h : validJsDate d) :
    certIdString d c =
      "CERT-" ++ datePart d ++ "-" ++ padStartStr 5 '0' (decRepr c) ∧
      (datePart d).data.length = 8 ∧
      (∀ ch ∈ (datePart d).data, ch.isDigit = true) ∧
      (padStartStr 5 '0' (decRepr c)).data.length =
        max 5 (decRepr c).data.length ∧
      5 ≤ (padStartStr 5 '0' (decRepr c)).data.length ∧
      (c < 100000 → (padStartStr 5 '0' (decRepr c)).data.length = 5) ∧
      (∀ ch ∈ (padStartStr 5 '0' (decRepr c)).data, ch.isDigit = true) ∧
      decDecode (padStartStr 5 '0' (decRepr c)).data = c := by
  refine ⟨rfl, datePart_data_length h, datePart_all_digits d,
    padStartStr_length 5 '0' (decRepr c), ?_, ?_, padStart_all_digits 5 c,
    decDecode_padStart 5 c⟩
  · rw [padStartStr_length]
    omega
  · intro hc
    have hle : (natToDecChars c).length ≤ 5 := by
      refine natToDecChars_length_le (by norm_num) ?_
      norm_num
      omega
    have hle' : (decRepr c).data.length ≤ 5 := hle
    rw [padStartStr_length]
    omega

/-- Witness for C4 at date `sampleDate` and counter `42`. -/
theorem certIdString_format_witness :
    validJsDate sampleDate ∧
      (certIdString sampleDate 42 =
        "CERT-" ++ datePart sampleDate ++ "-" ++ padStartStr 5 '0' (decRepr 42) ∧
        (datePart sampleDate).data.length = 8 ∧
        (∀ ch ∈ (datePart sampleDate).data, ch.isDigit = true) ∧
        (padStartStr 5 '0' (decRepr 42)).data.length =
          max 5 (decRepr 42).data.length ∧
        5 ≤ (padStartStr 5 '0' (decRepr 42)).data.length ∧
        (42 < 100000 → (padStartStr 5 '0' (decRepr 42)).data.length = 5) ∧
        (∀ ch ∈ (padStartStr 5 '0' (decRepr 42)).data, ch.isDigit = true) ∧
        decDecode (padStartStr 5 '0' (decRepr 42)).data = 42) :=
  ⟨by decide, certIdString_format 42 (by decide)⟩

end CertApp
